import Mathlib

/-!
Verification of the password-strength meter core (`pst.py`).

The embedded functions are the scorer `check_password_strength`, its two
pattern helpers `has_sequential_chars` and `has_repeated_chars`, and the
random generator `generate_strong_password`.  Passwords are `List Char`
(Python strings over their characters); `ord` is `Char.toNat`; Python's
`re.search` character-class tests become `List.any` with the ASCII class
predicates, and `str.lower()` becomes `Char.toLower` mapped over the
characters (both choices agree with Python on all ASCII input; Python's
Unicode special cases for `\d` and `lower()` are outside every rule's
alphabet); randomness is made explicit as a tape of natural numbers
(`random.choice` reads one number and indexes the sequence with it modulo
its length, `random.shuffle` reads a list of numbers and repeatedly moves
the selected element to the front, producing a permutation).
-/

namespace Pst

/-- Loop body of `has_sequential_chars` (pst.py lines 9-23): the window of
`min_length` characters starting at `i`; ascending means every adjacent pair
of character codes differs by exactly +1, descending by exactly -1. -/
def seq_window_check (s : List Char) (min_length : Nat) (i : Nat) : Bool :=
  let current_slice := (s.drop i).take min_length
  let is_ascending := (List.range (min_length - 1)).all fun j =>
    ((current_slice.getD (j + 1) 'A').toNat : Int)
      - ((current_slice.getD j 'A').toNat : Int) == 1
  let is_descending := (List.range (min_length - 1)).all fun j =>
    ((current_slice.getD j 'A').toNat : Int)
      - ((current_slice.getD (j + 1) 'A').toNat : Int) == 1
  is_ascending || is_descending

/-- Embedding of `has_sequential_chars(s, min_length=3)` (pst.py lines 7-24):
slide the window check over every start position, returning true as soon as
one window is ascending or descending.  Python's
`range(len(s) - min_length + 1)` is empty when the subtraction is negative,
which truncated `Nat` subtraction `s.length + 1 - min_length` reproduces. -/
def has_sequential_chars (s : List Char) (min_length : Nat := 3) : Bool :=
  (List.range (s.length + 1 - min_length)).any (seq_window_check s min_length)

/-- Loop body of `has_repeated_chars` (pst.py lines 28-30): the window of
`min_length` characters starting at `i` holds exactly one distinct character
(`len(set(current_slice)) == 1`). -/
def rep_window_check (s : List Char) (min_length : Nat) (i : Nat) : Bool :=
  let current_slice := (s.drop i).take min_length
  current_slice.dedup.length == 1

/-- Embedding of `has_repeated_chars(s, min_length=3)` (pst.py lines 26-31):
slide the window check over every start position. -/
def has_repeated_chars (s : List Char) (min_length : Nat := 3) : Bool :=
  (List.range (s.length + 1 - min_length)).any (rep_window_check s min_length)

/-- The `uppercase` alphabet of `generate_strong_password` (pst.py line 34). -/
def uppercase : List Char := "ABCDEFGHIJKLMNOPQRSTUVWXYZ".data

/-- The `lowercase` alphabet of `generate_strong_password` (pst.py line 35). -/
def lowercase : List Char := "abcdefghijklmnopqrstuvwxyz".data

/-- The `digits` alphabet of `generate_strong_password` (pst.py line 36). -/
def digits : List Char := "0123456789".data

/-- The `specials` alphabet of `generate_strong_password` (pst.py line 37). -/
def specials : List Char := "!@#$%^&*".data

/-- The `all_chars` pool of `generate_strong_password` (pst.py line 46):
the concatenation of the four class alphabets. -/
def all_chars : List Char := uppercase ++ lowercase ++ digits ++ specials

/-- Model of `random.choice(l)`: the random draw is an explicit natural
number `r`, and the chosen element is `l[r % len(l)]` — for a nonempty `l`
every element is reachable and the result is always an element of `l`. -/
def choice (l : List Char) (r : Nat) : Char := l.getD (r % l.length) 'A'

/-- An explicit tape for the random draws one call of
`generate_strong_password` makes: one number per `random.choice` of the four
mandatory class characters, a stream for the tail draws, and a list of
numbers consumed by the shuffle. -/
structure RandTape where
  r_upper : Nat
  r_lower : Nat
  r_digit : Nat
  r_special : Nat
  tails : Nat → Nat
  shuffles : List Nat

/-- Model of `random.shuffle`: repeatedly pick the element indexed by the
next tape number (modulo the remaining length), emit it and recurse on the
rest; when the tape is exhausted the remaining elements are kept in place.
Every outcome is a permutation of the input and every permutation is an
outcome of some tape. -/
def shuffleModel : List Nat → List Char → List Char
  | _, [] => []
  | [], l => l
  | r :: rs, l =>
    l.getD (r % l.length) 'A' :: shuffleModel rs (l.eraseIdx (r % l.length))

/-- The tail of `generate_strong_password` (pst.py lines 46-48): `length - 4`
further draws from `all_chars`; Python's `range(length - 4)` is empty for
`length < 4`, which `Int.toNat` reproduces. -/
def tail_chars (length : Int) (tape : RandTape) : List Char :=
  (List.range (length - 4).toNat).map fun k => choice all_chars (tape.tails k)

/-- Embedding of `generate_strong_password(length=12)` (pst.py lines 33-51):
one draw from each of the four class alphabets, then `length - 4` draws from
`all_chars`, then a shuffle of the combined list. -/
def generate_strong_password (length : Int) (tape : RandTape) : List Char :=
  let password := [choice uppercase tape.r_upper, choice lowercase tape.r_lower,
                   choice digits tape.r_digit, choice specials tape.r_special]
  let password := password ++ tail_chars length tape
  shuffleModel tape.shuffles password

/-- The `common_passwords` list of `check_password_strength`
(pst.py lines 54-60). -/
def common_passwords : List (List Char) :=
  ["password".data, "123456".data, "12345678".data, "qwerty".data, "abc123".data,
   "password1".data, "admin".data, "letmein".data, "welcome".data, "monkey".data,
   "sunshine".data, "password123".data, "football".data, "iloveyou".data,
   "1234567".data, "1234567890".data, "123123".data, "12345".data, "1234".data,
   "111111".data, "000000".data, "passw0rd".data]

/-- Feedback message of the length rule (pst.py line 73). -/
def lenMsg : String := "Password should be at least 8 characters long"

/-- Feedback message of the uppercase rule (pst.py line 79). -/
def upperMsg : String := "Include uppercase letters"

/-- Feedback message of the lowercase rule (pst.py line 85). -/
def lowerMsg : String := "Include lowercase letters"

/-- Feedback message of the digit rule (pst.py line 91). -/
def digitMsg : String := "Add at least one number (0-9)"

/-- Feedback message of the special-character rule (pst.py line 97). -/
def specialMsg : String := "Include at least one special character (!@#$%^&*)"

/-- Feedback message of the sequential-pattern penalty (pst.py line 101). -/
def seqMsg : String := "Avoid sequential characters (e.g., 'abc', '123')"

/-- Feedback message of the repeated-pattern penalty (pst.py line 106). -/
def repMsg : String := "Avoid repeated characters (e.g., 'aaa', '111')"

/-- One positive rule of the scorer: when `cond` holds add 1 to the score,
otherwise append the rule's feedback message (the shape of pst.py
lines 70-97). -/
def applyBonus (cond : Bool) (msg : String) (st : Int × List String) :
    Int × List String :=
  if cond then (st.1 + 1, st.2) else (st.1, st.2 ++ [msg])

/-- One penalty rule of the scorer: when `cond` holds subtract 1 from the
score and append the rule's feedback message (the shape of pst.py
lines 99-107). -/
def applyPenalty (cond : Bool) (msg : String) (st : Int × List String) :
    Int × List String :=
  if cond then (st.1 - 1, st.2 ++ [msg]) else st

/-- Embedding of `check_password_strength(password)` (pst.py lines 53-112):
the common-password early exit returns `(0, [])`; otherwise the five positive
rules (length at least 8, `[A-Z]`, `[a-z]`, `\d`, `[!@#$%^&*]`) and the two
penalties run in order on a score/feedback accumulator, and the score is
clamped by `max 0` before returning. -/
def check_password_strength (password : List Char) : Int × List String :=
  if password.map Char.toLower ∈ common_passwords then
    (0, [])
  else
    let st := ((0 : Int), ([] : List String))
    let st := applyBonus (decide (8 ≤ password.length)) lenMsg st
    let st := applyBonus (password.any Char.isUpper) upperMsg st
    let st := applyBonus (password.any Char.isLower) lowerMsg st
    let st := applyBonus (password.any Char.isDigit) digitMsg st
    let st := applyBonus (password.any fun c => ("!@#$%^&*".data).contains c)
      specialMsg st
    let st := applyPenalty (has_sequential_chars password 3) seqMsg st
    let st := applyPenalty (has_repeated_chars password 3) repMsg st
    (max 0 st.1, st.2)

/-! Closed forms of the scorer's components, used to state and prove the
claims; `check_password_strength_eq` relates them to the embedded scorer. -/

/-- Score contribution of a boolean rule outcome: 1 when it holds, else 0. -/
def b2i (b : Bool) : Int := if b then 1 else 0

/-- The length rule's condition (pst.py line 70). -/
def lengthOK (p : List Char) : Bool := decide (8 ≤ p.length)

/-- The uppercase rule's condition, `re.search("[A-Z]", ...)` (pst.py line 76). -/
def hasUpper (p : List Char) : Bool := p.any Char.isUpper

/-- The lowercase rule's condition, `re.search("[a-z]", ...)` (pst.py line 82). -/
def hasLower (p : List Char) : Bool := p.any Char.isLower

/-- The digit rule's condition, `re.search("\d", ...)` (pst.py line 88). -/
def hasDigit (p : List Char) : Bool := p.any Char.isDigit

/-- The special-character rule's condition, `re.search("[!@#$%^&*]", ...)`
(pst.py line 94). -/
def hasSpecial (p : List Char) : Bool := p.any fun c => ("!@#$%^&*".data).contains c

/-- The common-password early-exit condition (pst.py line 65). -/
def isCommon (p : List Char) : Bool := decide (p.map Char.toLower ∈ common_passwords)

/-- Sum of the five positive rule contributions. -/
def bonus_score (p : List Char) : Int :=
  b2i (lengthOK p) + b2i (hasUpper p) + b2i (hasLower p) + b2i (hasDigit p) +
    b2i (hasSpecial p)

/-- The value of the scorer's internal `score` variable at the point of
return, before the `max 0` clamp: 0 on the common-password exit, otherwise
the signed sum of the per-rule contributions. -/
def raw_score (p : List Char) : Int :=
  if isCommon p then 0
  else bonus_score p - b2i (has_sequential_chars p 3) - b2i (has_repeated_chars p 3)

/-- The feedback the scorer accumulates on a password that is not a common
password, in rule-evaluation order. -/
def feedback_list (p : List Char) : List String :=
  (if lengthOK p then [] else [lenMsg]) ++
  (if hasUpper p then [] else [upperMsg]) ++
  (if hasLower p then [] else [lowerMsg]) ++
  (if hasDigit p then [] else [digitMsg]) ++
  (if hasSpecial p then [] else [specialMsg]) ++
  (if has_sequential_chars p 3 then [seqMsg] else []) ++
  (if has_repeated_chars p 3 then [repMsg] else [])

/-- The seven feedback messages the scorer can emit, in evaluation order. -/
def all_messages : List String :=
  [lenMsg, upperMsg, lowerMsg, digitMsg, specialMsg, seqMsg, repMsg]

/-- The window at position `i` is strictly consecutive ascending: each of the
two adjacent code pairs differs by exactly +1 (the spec's notion of an
ascending sequential run of length 3 starting at `i`). -/
def ascTripleAt (p : List Char) (i : Nat) : Prop :=
  (p.getD (i + 1) 'A').toNat = (p.getD i 'A').toNat + 1 ∧
  (p.getD (i + 2) 'A').toNat = (p.getD (i + 1) 'A').toNat + 1

/-- The window at position `i` is strictly consecutive descending: each of
the two adjacent code pairs differs by exactly -1. -/
def descTripleAt (p : List Char) (i : Nat) : Prop :=
  (p.getD i 'A').toNat = (p.getD (i + 1) 'A').toNat + 1 ∧
  (p.getD (i + 1) 'A').toNat = (p.getD (i + 2) 'A').toNat + 1

/-- The window at position `i` holds three identical characters (the spec's
notion of a repeated run of length 3 starting at `i`). -/
def repTripleAt (p : List Char) (i : Nat) : Prop :=
  p.getD i 'A' = p.getD (i + 1) 'A' ∧ p.getD (i + 1) 'A' = p.getD (i + 2) 'A'

/-- A fixed all-zero random tape, used to instantiate the generator theorems
at concrete inputs. -/
def tape0 : RandTape where
  r_upper := 0
  r_lower := 0
  r_digit := 0
  r_special := 0
  tails := fun _ => 0
  shuffles := []

theorem applyBonus_eq (c : Bool) (m : String) (st : Int × List String) :
    applyBonus c m st = (st.1 + b2i c, st.2 ++ if c then [] else [m]) := by
  cases c <;> simp [applyBonus, b2i]

theorem applyPenalty_eq (c : Bool) (m : String) (st : Int × List String) :
    applyPenalty c m st = (st.1 - b2i c, st.2 ++ if c then [m] else []) := by
  cases c <;> simp [applyPenalty, b2i]

/-- The embedded scorer in closed form: the common-password exit, and
otherwise the clamped signed rule sum together with the ordered feedback. -/
theorem check_password_strength_eq (p : List Char) :
    check_password_strength p =
      if isCommon p then ((0 : Int), ([] : List String))
      else (max 0 (bonus_score p - b2i (has_sequential_chars p 3)
                     - b2i (has_repeated_chars p 3)),
            feedback_list p) := by
  by_cases h : p.map Char.toLower ∈ common_passwords
  · simp [check_password_strength, isCommon, h]
  · rw [check_password_strength, if_neg h, if_neg (by simp [isCommon, h])]
    simp only [applyBonus_eq, applyPenalty_eq]
    refine Prod.ext ?_ ?_
    · simp [bonus_score, lengthOK, hasUpper, hasLower, hasDigit, hasSpecial]
    · simp [feedback_list, lengthOK, hasUpper, hasLower, hasDigit, hasSpecial,
        List.append_assoc]

theorem b2i_nonneg (b : Bool) : 0 ≤ b2i b := by cases b <;> simp [b2i]

theorem b2i_le_one (b : Bool) : b2i b ≤ 1 := by cases b <;> simp [b2i]

theorem b2i_eq_one_iff (b : Bool) : b2i b = 1 ↔ b = true := by
  cases b <;> simp [b2i]

theorem b2i_eq_zero_iff (b : Bool) : b2i b = 0 ↔ b = false := by
  cases b <;> simp [b2i]

theorem opt_fail_nil (c : Bool) (m : String) :
    ((if c then ([] : List String) else [m]) = []) ↔ c = true := by
  cases c <;> simp

theorem opt_pen_nil (c : Bool) (m : String) :
    ((if c then [m] else ([] : List String)) = []) ↔ c = false := by
  cases c <;> simp

/-- The feedback is empty exactly when the five positive rules hold and the
two penalty scans find nothing. -/
theorem feedback_list_eq_nil (p : List Char) :
    feedback_list p = [] ↔
      lengthOK p = true ∧ hasUpper p = true ∧ hasLower p = true ∧
      hasDigit p = true ∧ hasSpecial p = true ∧
      has_sequential_chars p 3 = false ∧ has_repeated_chars p 3 = false := by
  simp [feedback_list, List.append_eq_nil, opt_fail_nil, opt_pen_nil]

theorem opt_fail_sublist (c : Bool) (m : String) :
    List.Sublist (if c then ([] : List String) else [m]) [m] := by
  cases c
  · exact List.Sublist.refl _
  · exact List.nil_sublist _

theorem opt_pen_sublist (c : Bool) (m : String) :
    List.Sublist (if c then [m] else ([] : List String)) [m] := by
  cases c
  · exact List.nil_sublist _
  · exact List.Sublist.refl _

/-- Every feedback list is a sublist of the seven fixed messages in order. -/
theorem feedback_list_sublist (p : List Char) :
    List.Sublist (feedback_list p) all_messages := by
  unfold feedback_list all_messages
  exact List.Sublist.append
    (List.Sublist.append
      (List.Sublist.append
        (List.Sublist.append
          (List.Sublist.append
            (List.Sublist.append (opt_fail_sublist _ _) (opt_fail_sublist _ _))
            (opt_fail_sublist _ _))
          (opt_fail_sublist _ _))
        (opt_fail_sublist _ _))
      (opt_pen_sublist _ _))
    (opt_pen_sublist _ _)

theorem all_messages_nodup : all_messages.Nodup := by decide

theorem count_opt_fail_ne (c : Bool) (m x : String) (h : x ≠ m) :
    (if c then ([] : List String) else [m]).count x = 0 := by
  cases c <;> simp [h]

theorem count_opt_pen_self (c : Bool) (m : String) :
    (if c then [m] else ([] : List String)).count m = if c then 1 else 0 := by
  cases c <;> simp

theorem count_opt_pen_ne (c : Bool) (m x : String) (h : x ≠ m) :
    (if c then [m] else ([] : List String)).count x = 0 := by
  cases c <;> simp [h]

/-- The sequential-pattern message appears once when the scan fires, never
otherwise. -/
theorem count_feedback_seq (p : List Char) :
    (feedback_list p).count seqMsg = if has_sequential_chars p 3 then 1 else 0 := by
  have h1 : seqMsg ≠ lenMsg := by decide
  have h2 : seqMsg ≠ upperMsg := by decide
  have h3 : seqMsg ≠ lowerMsg := by decide
  have h4 : seqMsg ≠ digitMsg := by decide
  have h5 : seqMsg ≠ specialMsg := by decide
  have h7 : seqMsg ≠ repMsg := by decide
  simp [feedback_list, List.count_append, count_opt_fail_ne _ _ _ h1,
    count_opt_fail_ne _ _ _ h2, count_opt_fail_ne _ _ _ h3,
    count_opt_fail_ne _ _ _ h4, count_opt_fail_ne _ _ _ h5,
    count_opt_pen_self, count_opt_pen_ne _ _ _ h7]

/-- The repeated-pattern message appears once when the scan fires, never
otherwise. -/
theorem count_feedback_rep (p : List Char) :
    (feedback_list p).count repMsg = if has_repeated_chars p 3 then 1 else 0 := by
  have h1 : repMsg ≠ lenMsg := by decide
  have h2 : repMsg ≠ upperMsg := by decide
  have h3 : repMsg ≠ lowerMsg := by decide
  have h4 : repMsg ≠ digitMsg := by decide
  have h5 : repMsg ≠ specialMsg := by decide
  have h6 : repMsg ≠ seqMsg := by decide
  simp [feedback_list, List.count_append, count_opt_fail_ne _ _ _ h1,
    count_opt_fail_ne _ _ _ h2, count_opt_fail_ne _ _ _ h3,
    count_opt_fail_ne _ _ _ h4, count_opt_fail_ne _ _ _ h5,
    count_opt_pen_self, count_opt_pen_ne _ _ _ h6]

theorem bonus_score_nonneg (p : List Char) : 0 ≤ bonus_score p := by
  unfold bonus_score
  have h1 := b2i_nonneg (lengthOK p)
  have h2 := b2i_nonneg (hasUpper p)
  have h3 := b2i_nonneg (hasLower p)
  have h4 := b2i_nonneg (hasDigit p)
  have h5 := b2i_nonneg (hasSpecial p)
  omega

theorem bonus_score_le_five (p : List Char) : bonus_score p ≤ 5 := by
  unfold bonus_score
  have h1 := b2i_le_one (lengthOK p)
  have h2 := b2i_le_one (hasUpper p)
  have h3 := b2i_le_one (hasLower p)
  have h4 := b2i_le_one (hasDigit p)
  have h5 := b2i_le_one (hasSpecial p)
  omega

theorem getD3_0 (x y z d : Char) : [x, y, z].getD 0 d = x := rfl

theorem getD3_1 (x y z d : Char) : [x, y, z].getD 1 d = y := rfl

theorem getD3_2 (x y z d : Char) : [x, y, z].getD 2 d = z := rfl

theorem range_two : List.range 2 = [0, 1] := rfl

/-- A window of length 3 in bounds is the list of its three elements. -/
theorem take_three (p : List Char) (i : Nat) (h : i + 3 ≤ p.length) :
    (p.drop i).take 3 = [p.getD i 'A', p.getD (i + 1) 'A', p.getD (i + 2) 'A'] := by
  induction p generalizing i with
  | nil => simp at h
  | cons a t ih =>
    cases i with
    | zero =>
      cases t with
      | nil => simp at h
      | cons b u =>
        cases u with
        | nil => simp at h
        | cons c v => rfl
    | succ n =>
      have h2 : n + 3 ≤ t.length := by
        simp only [List.length_cons] at h
        omega
      have hd : (a :: t).drop (n + 1) = t.drop n := rfl
      have g0 : (a :: t).getD (n + 1) 'A' = t.getD n 'A' := rfl
      have g1 : (a :: t).getD (n + 1 + 1) 'A' = t.getD (n + 1) 'A' := rfl
      have g2 : (a :: t).getD (n + 1 + 2) 'A' = t.getD (n + 2) 'A' := rfl
      rw [hd, g0, g1, g2, ih n h2]

/-- One in-bounds window of the sequential scan fires exactly on a strictly
consecutive ascending or descending triple. -/
theorem seq_window_check_iff (p : List Char) (i : Nat) (h3 : i + 3 ≤ p.length) :
    seq_window_check p 3 i = true ↔ (ascTripleAt p i ∨ descTripleAt p i) := by
  simp only [seq_window_check, take_three p i h3,
    show (3 : Nat) - 1 = 2 from rfl, range_two, List.all_cons, List.all_nil,
    Nat.zero_add, show (1 : Nat) + 1 = 2 from rfl, getD3_0, getD3_1, getD3_2,
    Bool.and_true, Bool.or_eq_true, Bool.and_eq_true, beq_iff_eq]
  unfold ascTripleAt descTripleAt
  omega

/-- The sliding-window sequential scan, characterized: it fires exactly when
some in-bounds window of length 3 is strictly consecutive ascending or
strictly consecutive descending. -/
theorem has_sequential_chars_iff (p : List Char) :
    has_sequential_chars p 3 = true ↔
      ∃ i, i + 3 ≤ p.length ∧ (ascTripleAt p i ∨ descTripleAt p i) := by
  unfold has_sequential_chars
  rw [List.any_eq_true]
  constructor
  · rintro ⟨i, hi, hf⟩
    rw [List.mem_range] at hi
    have h3 : i + 3 ≤ p.length := by omega
    exact ⟨i, h3, (seq_window_check_iff p i h3).mp hf⟩
  · rintro ⟨i, h3, hc⟩
    exact ⟨i, List.mem_range.mpr (by omega), (seq_window_check_iff p i h3).mpr hc⟩

/-- A three-element list has one distinct element exactly when all three
are equal. -/
theorem dedup3_len_one (x y z : Char) :
    ([x, y, z].dedup.length == 1) = true ↔ (x = y ∧ y = z) := by
  by_cases hxy : x = y <;> by_cases hyz : y = z <;> by_cases hxz : x = z <;>
    simp_all [List.dedup_cons_of_mem, List.dedup_cons_of_not_mem]

/-- One in-bounds window of the repeated scan fires exactly on a triple of
identical characters. -/
theorem rep_window_check_iff (p : List Char) (i : Nat) (h3 : i + 3 ≤ p.length) :
    rep_window_check p 3 i = true ↔ repTripleAt p i := by
  simp only [rep_window_check, take_three p i h3]
  rw [dedup3_len_one]
  unfold repTripleAt
  exact Iff.rfl

/-- The sliding-window repeated scan, characterized: it fires exactly when
some in-bounds window of length 3 holds three identical characters. -/
theorem has_repeated_chars_iff (p : List Char) :
    has_repeated_chars p 3 = true ↔ ∃ i, i + 3 ≤ p.length ∧ repTripleAt p i := by
  unfold has_repeated_chars
  rw [List.any_eq_true]
  constructor
  · rintro ⟨i, hi, hf⟩
    rw [List.mem_range] at hi
    have h3 : i + 3 ≤ p.length := by omega
    exact ⟨i, h3, (rep_window_check_iff p i h3).mp hf⟩
  · rintro ⟨i, h3, hc⟩
    exact ⟨i, List.mem_range.mpr (by omega), (rep_window_check_iff p i h3).mpr hc⟩

/-- For a password shorter than 3 both scans have no window to inspect. -/
theorem short_password_no_scan (p : List Char) (h : p.length < 3) :
    has_sequential_chars p 3 = false ∧ has_repeated_chars p 3 = false := by
  have hr : p.length + 1 - 3 = 0 := by omega
  constructor
  · unfold has_sequential_chars
    rw [hr]
    rfl
  · unfold has_repeated_chars
    rw [hr]
    rfl

theorem getD_eq_getElem (l : List Char) (i : Nat) (d : Char) (h : i < l.length) :
    l.getD i d = l[i] := by
  induction l generalizing i with
  | nil => simp at h
  | cons a t ih =>
    cases i with
    | zero => rfl
    | succ n => exact ih n (by simpa using h)

/-- A modelled `random.choice` from a nonempty sequence always yields an
element of the sequence. -/
theorem choice_mem (l : List Char) (r : Nat) (h : l ≠ []) : choice l r ∈ l := by
  unfold choice
  have hlt : r % l.length < l.length := Nat.mod_lt _ (List.length_pos.mpr h)
  rw [getD_eq_getElem l _ 'A' hlt]
  exact List.getElem_mem _

theorem cons_eraseIdx_perm (l : List Char) (i : Nat) (h : i < l.length) :
    List.Perm (l.getD i 'A' :: l.eraseIdx i) l := by
  rw [getD_eq_getElem l i 'A' h]
  exact ((List.erase_getElem h).cons _).symm.trans
    (List.perm_cons_erase (List.getElem_mem _)).symm

/-- The modelled `random.shuffle` permutes its input, whatever the tape. -/
theorem shuffleModel_perm (rs : List Nat) (l : List Char) :
    List.Perm (shuffleModel rs l) l := by
  induction rs generalizing l with
  | nil => cases l <;> exact List.Perm.refl _
  | cons r rs ih =>
    cases l with
    | nil => exact List.Perm.refl _
    | cons a t =>
      have hlt : r % (a :: t).length < (a :: t).length := Nat.mod_lt _ (by simp)
      exact ((ih _).cons _).trans (cons_eraseIdx_perm (a :: t) _ hlt)

/-- The generated password is a permutation of the four mandatory class
draws followed by the tail draws. -/
theorem generate_strong_password_perm (length : Int) (tape : RandTape) :
    List.Perm (generate_strong_password length tape)
      ([choice uppercase tape.r_upper, choice lowercase tape.r_lower,
        choice digits tape.r_digit, choice specials tape.r_special]
        ++ tail_chars length tape) := by
  unfold generate_strong_password
  exact shuffleModel_perm _ _

theorem tail_chars_length (length : Int) (tape : RandTape) :
    (tail_chars length tape).length = (length - 4).toNat := by
  unfold tail_chars
  simp

theorem tail_chars_mem (length : Int) (tape : RandTape) (c : Char)
    (hc : c ∈ tail_chars length tape) : c ∈ all_chars := by
  unfold tail_chars at hc
  rw [List.mem_map] at hc
  obtain ⟨k, -, rfl⟩ := hc
  exact choice_mem all_chars _ (by decide)

theorem generate_strong_password_length (length : Int) (tape : RandTape) :
    (generate_strong_password length tape).length = 4 + (length - 4).toNat := by
  rw [(generate_strong_password_perm length tape).length_eq]
  simp [tail_chars_length]
  omega

/-- By construction the generated password holds at least one character of
each of the four classes, whatever the requested length and the tape. -/
theorem generate_contains_each_class (length : Int) (tape : RandTape) :
    (∃ c ∈ generate_strong_password length tape, c ∈ uppercase) ∧
    (∃ c ∈ generate_strong_password length tape, c ∈ lowercase) ∧
    (∃ c ∈ generate_strong_password length tape, c ∈ digits) ∧
    (∃ c ∈ generate_strong_password length tape, c ∈ specials) := by
  have hp := generate_strong_password_perm length tape
  refine ⟨⟨choice uppercase tape.r_upper, hp.mem_iff.mpr (by simp),
      choice_mem _ _ (by decide)⟩,
    ⟨choice lowercase tape.r_lower, hp.mem_iff.mpr (by simp),
      choice_mem _ _ (by decide)⟩,
    ⟨choice digits tape.r_digit, hp.mem_iff.mpr (by simp),
      choice_mem _ _ (by decide)⟩,
    ⟨choice specials tape.r_special, hp.mem_iff.mpr (by simp),
      choice_mem _ _ (by decide)⟩⟩

theorem check_fst_of_not_common (p : List Char) (h : isCommon p = false) :
    (check_password_strength p).1 =
      max 0 (bonus_score p - b2i (has_sequential_chars p 3)
               - b2i (has_repeated_chars p 3)) := by
  rw [check_password_strength_eq, if_neg (by simp [h])]

theorem check_snd_of_not_common (p : List Char) (h : isCommon p = false) :
    (check_password_strength p).2 = feedback_list p := by
  rw [check_password_strength_eq, if_neg (by simp [h])]

end Pst

open Pst

/-- C1: a password whose lower-cased form equals an entry of the
common-password list makes `check_password_strength` return score 0 with
empty feedback at once, and this common-password check is the scorer's only
early exit: the result is `(0, [])` exactly for such passwords. -/
theorem C1_common_password_short_circuit (p : List Char) :
    p.map Char.toLower ∈ common_passwords ↔
      check_password_strength p = (0, []) := by
  rw [check_password_strength_eq]
  constructor
  · intro h
    rw [if_pos (by simp [isCommon, h])]
  · intro h
    by_contra hmem
    rw [if_neg (by simp [isCommon, hmem])] at h
    rw [Prod.mk.injEq] at h
    obtain ⟨h1, h2⟩ := h
    rw [feedback_list_eq_nil] at h2
    obtain ⟨hl, hu, hlo, hd, hs, hseq, hrep⟩ := h2
    rw [bonus_score, hl, hu, hlo, hd, hs, hseq, hrep] at h1
    simp [b2i] at h1

/-- C2: for every input the returned score is `max 0 raw_score`, the clamp of
the signed sum of the per-rule contributions, and it always lies in the range
0 to 5. -/
theorem C2_score_is_clamped_raw_score (p : List Char) :
    (check_password_strength p).1 = max 0 (raw_score p) ∧
    0 ≤ (check_password_strength p).1 ∧ (check_password_strength p).1 ≤ 5 := by
  have hb0 := bonus_score_nonneg p
  have hb5 := bonus_score_le_five p
  have hs0 := b2i_nonneg (has_sequential_chars p 3)
  have hs1 := b2i_le_one (has_sequential_chars p 3)
  have hr0 := b2i_nonneg (has_repeated_chars p 3)
  have hr1 := b2i_le_one (has_repeated_chars p 3)
  rw [check_password_strength_eq, raw_score]
  by_cases h : isCommon p
  · simp [h]
  · rw [if_neg h, if_neg h]
    refine ⟨rfl, le_max_left _ _, max_le (by norm_num) (by omega)⟩

/-- C8: the empty password is not a common password, scores 0, and collects
exactly the five missing-category messages, with no sequential- or
repeated-pattern feedback. -/
theorem C8_empty_password_five_messages :
    check_password_strength [] =
      (0, [lenMsg, upperMsg, lowerMsg, digitMsg, specialMsg]) := by
  decide

/-- C10: on a password that is not in the common-password list, the score is
5 exactly when the feedback list is empty; every feedback message is one of
the seven fixed messages, and each appears at most once. -/
theorem C10_score_five_iff_empty_feedback (p : List Char)
    (h : p.map Char.toLower ∉ common_passwords) :
    ((check_password_strength p).1 = 5 ↔ (check_password_strength p).2 = []) ∧
    (∀ m ∈ (check_password_strength p).2, m ∈ all_messages) ∧
    (∀ m : String, (check_password_strength p).2.count m ≤ 1) := by
  have hc : isCommon p = false := by simp [isCommon, h]
  rw [check_fst_of_not_common p hc, check_snd_of_not_common p hc]
  refine ⟨?_, ?_, ?_⟩
  · constructor
    · intro h5
      have hb5 := bonus_score_le_five p
      have h1a := b2i_nonneg (lengthOK p)
      have h1b := b2i_le_one (lengthOK p)
      have h2a := b2i_nonneg (hasUpper p)
      have h2b := b2i_le_one (hasUpper p)
      have h3a := b2i_nonneg (hasLower p)
      have h3b := b2i_le_one (hasLower p)
      have h4a := b2i_nonneg (hasDigit p)
      have h4b := b2i_le_one (hasDigit p)
      have h5a := b2i_nonneg (hasSpecial p)
      have h5b := b2i_le_one (hasSpecial p)
      have hs0 := b2i_nonneg (has_sequential_chars p 3)
      have hr0 := b2i_nonneg (has_repeated_chars p 3)
      rw [bonus_score] at h5 hb5
      have hall : b2i (lengthOK p) = 1 ∧ b2i (hasUpper p) = 1 ∧
          b2i (hasLower p) = 1 ∧ b2i (hasDigit p) = 1 ∧ b2i (hasSpecial p) = 1 ∧
          b2i (has_sequential_chars p 3) = 0 ∧
          b2i (has_repeated_chars p 3) = 0 := by omega
      rw [b2i_eq_one_iff, b2i_eq_one_iff, b2i_eq_one_iff, b2i_eq_one_iff,
        b2i_eq_one_iff, b2i_eq_zero_iff, b2i_eq_zero_iff] at hall
      exact (feedback_list_eq_nil p).mpr hall
    · intro hnil
      obtain ⟨hl, hu, hlo, hd, hs, hseq, hrep⟩ := (feedback_list_eq_nil p).mp hnil
      rw [bonus_score, hl, hu, hlo, hd, hs, hseq, hrep]
      simp [b2i]
  · intro m hm
    exact (feedback_list_sublist p).subset hm
  · intro m
    exact List.nodup_iff_count_le_one.mp
      (all_messages_nodup.sublist (feedback_list_sublist p)) m

/-- C3: on a non-common password the sequential penalty subtracts exactly 1
from the signed rule sum and contributes its feedback message exactly once
(never more, however many windows match) exactly when the sliding length-3
window scan finds a strictly consecutive ascending or descending run; at the
boundary, "ABD" does not fire the scan while "ABC" and "CBA" do. -/
theorem C3_sequential_penalty (p : List Char)
    (h : p.map Char.toLower ∉ common_passwords) :
    ((check_password_strength p).1 =
        max 0 (bonus_score p - (if has_sequential_chars p 3 then 1 else 0)
                 - (if has_repeated_chars p 3 then 1 else 0)) ∧
      (check_password_strength p).2.count seqMsg =
        (if has_sequential_chars p 3 then 1 else 0)) ∧
    (has_sequential_chars p 3 = true ↔
      ∃ i, i + 3 ≤ p.length ∧ (ascTripleAt p i ∨ descTripleAt p i)) ∧
    (has_sequential_chars ("ABD".data) 3 = false ∧
     has_sequential_chars ("ABC".data) 3 = true ∧
     has_sequential_chars ("CBA".data) 3 = true) := by
  have hc : isCommon p = false := by simp [isCommon, h]
  refine ⟨⟨?_, ?_⟩, has_sequential_chars_iff p,
    ⟨by decide, by decide, by decide⟩⟩
  · rw [check_fst_of_not_common p hc]
    simp only [b2i]
  · rw [check_snd_of_not_common p hc, count_feedback_seq]

/-- Witness for C3 at the concrete password "abcd": the hypothesis (not a
common password) is discharged by evaluation. -/
theorem C3_witness :
    ((check_password_strength ("abcd".data)).1 =
        max 0 (bonus_score ("abcd".data)
                 - (if has_sequential_chars ("abcd".data) 3 then 1 else 0)
                 - (if has_repeated_chars ("abcd".data) 3 then 1 else 0)) ∧
      (check_password_strength ("abcd".data)).2.count seqMsg =
        (if has_sequential_chars ("abcd".data) 3 then 1 else 0)) ∧
    (has_sequential_chars ("abcd".data) 3 = true ↔
      ∃ i, i + 3 ≤ ("abcd".data).length ∧
        (ascTripleAt ("abcd".data) i ∨ descTripleAt ("abcd".data) i)) ∧
    (has_sequential_chars ("ABD".data) 3 = false ∧
     has_sequential_chars ("ABC".data) 3 = true ∧
     has_sequential_chars ("CBA".data) 3 = true) :=
  C3_sequential_penalty ("abcd".data) (by decide)

/-- C4: on a non-common password the repeated penalty subtracts exactly 1
from the signed rule sum and contributes its feedback message exactly once,
exactly when the sliding length-3 window scan finds three identical adjacent
characters; and a password shorter than 3 fires neither scan, so neither
penalty message is ever emitted for it. -/
theorem C4_repeated_penalty (p : List Char)
    (h : p.map Char.toLower ∉ common_passwords) :
    ((check_password_strength p).1 =
        max 0 (bonus_score p - (if has_sequential_chars p 3 then 1 else 0)
                 - (if has_repeated_chars p 3 then 1 else 0)) ∧
      (check_password_strength p).2.count repMsg =
        (if has_repeated_chars p 3 then 1 else 0)) ∧
    (has_repeated_chars p 3 = true ↔
      ∃ i, i + 3 ≤ p.length ∧ repTripleAt p i) ∧
    (∀ q : List Char, q.length < 3 →
      has_sequential_chars q 3 = false ∧ has_repeated_chars q 3 = false ∧
      (check_password_strength q).2.count seqMsg = 0 ∧
      (check_password_strength q).2.count repMsg = 0) := by
  have hc : isCommon p = false := by simp [isCommon, h]
  refine ⟨⟨?_, ?_⟩, has_repeated_chars_iff p, ?_⟩
  · rw [check_fst_of_not_common p hc]
    simp only [b2i]
  · rw [check_snd_of_not_common p hc, count_feedback_rep]
  · intro q hq
    obtain ⟨hs, hr⟩ := short_password_no_scan q hq
    refine ⟨hs, hr, ?_, ?_⟩
    · cases hcq : isCommon q with
      | true =>
        rw [check_password_strength_eq, if_pos hcq]
        simp
      | false =>
        rw [check_snd_of_not_common q hcq, count_feedback_seq, hs]
        simp
    · cases hcq : isCommon q with
      | true =>
        rw [check_password_strength_eq, if_pos hcq]
        simp
      | false =>
        rw [check_snd_of_not_common q hcq, count_feedback_rep, hr]
        simp

/-- Witness for C4 at the concrete password "aaa": the hypothesis (not a
common password) is discharged by evaluation. -/
theorem C4_witness :
    ((check_password_strength ("aaa".data)).1 =
        max 0 (bonus_score ("aaa".data)
                 - (if has_sequential_chars ("aaa".data) 3 then 1 else 0)
                 - (if has_repeated_chars ("aaa".data) 3 then 1 else 0)) ∧
      (check_password_strength ("aaa".data)).2.count repMsg =
        (if has_repeated_chars ("aaa".data) 3 then 1 else 0)) ∧
    (has_repeated_chars ("aaa".data) 3 = true ↔
      ∃ i, i + 3 ≤ ("aaa".data).length ∧ repTripleAt ("aaa".data) i) ∧
    (∀ q : List Char, q.length < 3 →
      has_sequential_chars q 3 = false ∧ has_repeated_chars q 3 = false ∧
      (check_password_strength q).2.count seqMsg = 0 ∧
      (check_password_strength q).2.count repMsg = 0) :=
  C4_repeated_penalty ("aaa".data) (by decide)

/-- Witness for C10 at the concrete password "abc": the hypothesis (not a
common password) is discharged by evaluation. -/
theorem C10_witness :
    ((check_password_strength ("abc".data)).1 = 5 ↔
       (check_password_strength ("abc".data)).2 = []) ∧
    (∀ m ∈ (check_password_strength ("abc".data)).2, m ∈ all_messages) ∧
    (∀ m : String, ((check_password_strength ("abc".data)).2.count m ≤ 1)) :=
  C10_score_five_iff_empty_feedback ("abc".data) (by decide)

/-- C6: for every requested length of at least 4 and every outcome of the
random draws, the generated password has exactly the requested length and
contains at least one uppercase letter, one lowercase letter, one digit and
one special character, by construction. -/
theorem C6_generated_password_valid (length : Int) (tape : RandTape)
    (h : 4 ≤ length) :
    ((generate_strong_password length tape).length : Int) = length ∧
    (∃ c ∈ generate_strong_password length tape, c ∈ uppercase) ∧
    (∃ c ∈ generate_strong_password length tape, c ∈ lowercase) ∧
    (∃ c ∈ generate_strong_password length tape, c ∈ digits) ∧
    (∃ c ∈ generate_strong_password length tape, c ∈ specials) := by
  obtain ⟨h1, h2, h3, h4⟩ := generate_contains_each_class length tape
  refine ⟨?_, h1, h2, h3, h4⟩
  rw [generate_strong_password_length]
  omega

/-- Witness for C6 at the default length 12 on the all-zero tape. -/
theorem C6_witness :
    ((generate_strong_password 12 tape0).length : Int) = 12 ∧
    (∃ c ∈ generate_strong_password 12 tape0, c ∈ uppercase) ∧
    (∃ c ∈ generate_strong_password 12 tape0, c ∈ lowercase) ∧
    (∃ c ∈ generate_strong_password 12 tape0, c ∈ digits) ∧
    (∃ c ∈ generate_strong_password 12 tape0, c ∈ specials) :=
  C6_generated_password_valid 12 tape0 (by decide)

/-- C5 counterexample: the call with requested length 3 does not fail and is
not undefined — on the all-zero tape it returns the 4-character password
"Aa0!". -/
theorem C5_counterexample :
    generate_strong_password 3 tape0 = ['A', 'a', '0', '!'] ∧
    (generate_strong_password 3 tape0).length = 4 := by
  constructor <;> rfl

/-- C5 (amended): for every requested length below 4 the generator does not
reject the call; it returns a password of length exactly 4 (the four
mandatory class draws, the tail loop running zero times). -/
theorem C5_short_request_returns_password (length : Int) (tape : RandTape)
    (h : length < 4) :
    (generate_strong_password length tape).length = 4 := by
  rw [generate_strong_password_length]
  omega

/-- Witness for the amended C5 at the concrete length 0. -/
theorem C5_witness : (generate_strong_password 0 tape0).length = 4 :=
  C5_short_request_returns_password 0 tape0 (by decide)

/-- C7 counterexample: `all_chars`, the union of the four class alphabets,
holds 70 distinct characters (26 + 26 + 10 + 8), not 64 as the claim
counts. -/
theorem C7_counterexample :
    (all_chars.Nodup ∧ all_chars.length = 70) ∧ ¬ all_chars.length = 64 := by
  refine ⟨⟨by decide, by decide⟩, by decide⟩

/-- C7 (amended): the tail characters are drawn from the union of the four
class alphabets; the alphabets have sizes 26, 26, 10 and 8, are pairwise
disjoint (the union has no duplicate), and the union therefore holds exactly
70 possible characters — the claim's count of 64 is an arithmetic slip,
since 26 + 26 + 10 + 8 = 70. -/
theorem C7_tail_from_union (length : Int) (tape : RandTape) :
    (∀ c ∈ tail_chars length tape, c ∈ all_chars) ∧
    all_chars = uppercase ++ lowercase ++ digits ++ specials ∧
    uppercase.length = 26 ∧ lowercase.length = 26 ∧ digits.length = 10 ∧
    specials.length = 8 ∧ all_chars.length = 70 ∧ all_chars.Nodup := by
  exact ⟨fun c hc => tail_chars_mem length tape c hc, rfl, by decide, by decide,
    by decide, by decide, by decide, by decide⟩

/-- C9: for every requested length below 4 (zero and negative included) the
generator returns a defined, 4-character password — the tail loop runs zero
times — holding one character of each class; its length is `max length 4`. -/
theorem C9_short_request_gives_four (length : Int) (tape : RandTape)
    (h : length < 4) :
    tail_chars length tape = [] ∧
    (generate_strong_password length tape).length = 4 ∧
    ((generate_strong_password length tape).length : Int) = max length 4 ∧
    (∃ c ∈ generate_strong_password length tape, c ∈ uppercase) ∧
    (∃ c ∈ generate_strong_password length tape, c ∈ lowercase) ∧
    (∃ c ∈ generate_strong_password length tape, c ∈ digits) ∧
    (∃ c ∈ generate_strong_password length tape, c ∈ specials) := by
  obtain ⟨h1, h2, h3, h4⟩ := generate_contains_each_class length tape
  have htoNat : (length - 4).toNat = 0 := by omega
  refine ⟨?_, ?_, ?_, h1, h2, h3, h4⟩
  · unfold tail_chars
    rw [htoNat]
    rfl
  · rw [generate_strong_password_length, htoNat]
  · rw [generate_strong_password_length, htoNat]
    omega

/-- Witness for C9 at the concrete negative length -1. -/
theorem C9_witness :
    tail_chars (-1) tape0 = [] ∧
    (generate_strong_password (-1) tape0).length = 4 ∧
    ((generate_strong_password (-1) tape0).length : Int) = max (-1) 4 ∧
    (∃ c ∈ generate_strong_password (-1) tape0, c ∈ uppercase) ∧
    (∃ c ∈ generate_strong_password (-1) tape0, c ∈ lowercase) ∧
    (∃ c ∈ generate_strong_password (-1) tape0, c ∈ digits) ∧
    (∃ c ∈ generate_strong_password (-1) tape0, c ∈ specials) :=
  C9_short_request_gives_four (-1) tape0 (by decide)
